import Mathlib

/-!
Shallow embedding of the pg-embed core (src/pg_access.rs and src/postgres.rs):
the binary-acquisition cache bookkeeping, filesystem path resolution, the
lifecycle state machine around initdb / pg_ctl start / pg_ctl stop, and the
drop-time teardown.  Filesystem and process effects are modelled by passing
their outcomes in as explicit parameters; paths are lists of pushed segments.
-/

deriving instance DecidableEq for Except

namespace PgEmbed

/-- Acquisition status of postgres binaries, from pg_enums.rs
(the enum is referenced from src/pg_access.rs; variants Undefined,
InProgress, Finished). -/
inductive PgAcquisitionStatus
  | Undefined
  | InProgress
  | Finished
deriving DecidableEq

/-- Operating system variants, from pg_enums.rs as matched on in
`PgAccess::create_cache_dir_structure` (Darwin, Windows, Linux, AlpineLinux). -/
inductive OperationSystem
  | Darwin
  | Windows
  | Linux
  | AlpineLinux
deriving DecidableEq

/-- Server status, from src/postgres.rs `PgServerStatus`. -/
inductive PgServerStatus
  | Uninitialized
  | Initializing
  | Initialized
  | Starting
  | Started
  | Stopping
  | Stopped
  | Failure
deriving DecidableEq

/-- Process type, from src/postgres.rs `PgProcessType`. -/
inductive PgProcessType
  | InitDb
  | StartDb
  | StopDb
deriving DecidableEq

/-- `PgProcessType::to_string`, from src/postgres.rs. -/
def PgProcessType.toStr : PgProcessType → String
  | .InitDb => "initdb"
  | .StartDb => "start"
  | .StopDb => "stop"

/-- Error kinds of the access-side error type, from pg_errors.rs as used in
src/pg_access.rs (`PgEmbedErrorType::...`). -/
inductive PgEmbedErrorType
  | InvalidPgUrl
  | DirCreationError
  | WriteFileError
  | ReadFileError
  | PgCleanUpFailure
  | PgPurgeFailure
deriving DecidableEq

/-- The access-side error value, from pg_errors.rs as constructed in
src/pg_access.rs: an error kind, an optional boxed underlying io error
(modelled as its description string) and an optional message. -/
structure AccessError where
  error_type : PgEmbedErrorType
  source : Option String
  message : Option String
deriving DecidableEq

/-- Kind of a std io::Error as used in src/postgres.rs
(`ErrorKind::Other`, `ErrorKind::TimedOut`; spawn errors carry their own kind,
kept abstract as `Os`). -/
inductive IoErrorKind
  | Other
  | TimedOut
  | Os
deriving DecidableEq

/-- A std io::Error: a kind plus its display message. -/
structure IoError where
  kind : IoErrorKind
  msg : String
deriving DecidableEq

/-- The postgres-side error enum, from the errors module as constructed in
src/postgres.rs (`PgEmbedError::PgInitFailure` on initdb spawn failure,
`PgStartFailure`, `PgStopFailure`, `PgBufferReadError`). -/
inductive PgError
  | PgInitFailure (e : IoError)
  | PgStartFailure (e : IoError)
  | PgStopFailure (e : IoError)
  | PgBufferReadError (e : String)
deriving DecidableEq

/-- A filesystem path, as the list of segments pushed onto it.  A pushed
segment may itself contain slashes (Rust `PathBuf::push("bin/pg_ctl")`); the
rendered string below is what the OS sees either way. -/
abbrev Path : Type := List String

/-- Render a path: its segments joined by the separator. -/
def Path.render : Path → String
  | [] => ""
  | [s] => s
  | s :: rest => s ++ "/" ++ Path.render rest

/-- Rust `PathBuf::push` of a single segment. -/
def Path.push (p : Path) (s : String) : Path := p ++ [s]

/-- Split a file name at its last dot: `some (stem, ext)` when a dot exists,
`none` otherwise.  Mirrors how Rust locates the extension of a file name. -/
def lastDotSplit : List Char → Option (List Char × List Char)
  | [] => none
  | c :: cs =>
    match lastDotSplit cs with
    | some (st, ex) => some (c :: st, ex)
    | none => if c = '.' then some ([], cs) else none

/-- Rust `Path::set_extension` on a single file-name segment: replace the
extension when the name has one (a dot not in leading position), otherwise
append a dot and the new extension.  A name whose only dot is leading (a
hidden file like `.foo`) has no extension in Rust. -/
def setExtSegment (s ext : String) : String :=
  match lastDotSplit s.toList with
  | some (stem, _) =>
    if stem = [] then s ++ "." ++ ext else String.mk stem ++ "." ++ ext
  | none => s ++ "." ++ ext

/-- Rust `PathBuf::set_extension` applied to a path: rewrite the last
segment. -/
def Path.setExtension (p : Path) (ext : String) : Path :=
  match p.reverse with
  | [] => p
  | last :: restRev => restRev.reverse ++ [setExtSegment last ext]

/-! ## The shared acquisition-status map (`ACQUIRED_PG_BINS`)

A process-wide `HashMap<PathBuf, PgAcquisitionStatus>` behind a mutex,
from src/pg_access.rs; modelled as a function from cache-directory path to
optional status, with `insert` overwriting. -/

/-- The acquisition map state: cache directory path to recorded status. -/
def AcqMap : Type := Path → Option PgAcquisitionStatus

/-- The map as first constructed (`HashMap::with_capacity(5)`): empty. -/
def emptyAcqMap : AcqMap := fun _ => none

/-- `HashMap::insert`: overwrite the binding of one key. -/
def acqInsert (m : AcqMap) (k : Path) (v : PgAcquisitionStatus) : AcqMap :=
  fun k2 => if k2 = k then some v else m k2

/-- `PgAccess::mark_acquisition_in_progress`, from src/pg_access.rs:
insert InProgress for this instance's cache directory. -/
def mark_acquisition_in_progress (m : AcqMap) (cache_dir : Path) : AcqMap :=
  acqInsert m cache_dir .InProgress

/-- `PgAccess::mark_acquisition_finished`, from src/pg_access.rs:
insert Finished for this instance's cache directory. -/
def mark_acquisition_finished (m : AcqMap) (cache_dir : Path) : AcqMap :=
  acqInsert m cache_dir .Finished

/-- `PgAccess::acquisition_status`, from src/pg_access.rs: look the cache
directory up; an absent key reads as Undefined. -/
def acquisition_status (m : AcqMap) (cache_dir : Path) : PgAcquisitionStatus :=
  match m cache_dir with
  | none => .Undefined
  | some status => status

/-! ## `PgAccess::acquisition_needed`

The status observations over time are an explicit sequence `obs`: `obs 0` is
the status read by the initial `match`, and `obs (k+1)` the status read by the
k-th iteration condition of the polling `while` loop.  The loop is given fuel;
the function also returns the list of awaited tick durations, one
100-millisecond tick per loop iteration that saw InProgress. -/

/-- The tick duration of the polling loop, from src/pg_access.rs
(`Duration::from_millis(100)`). -/
def pollIntervalMillis : Nat := 100

/-- The `while acquisition_status() == InProgress { interval.tick().await }`
loop of `acquisition_needed`: returns the list of awaited tick durations, or
`none` when the fuel runs out with the status still InProgress. -/
def pollLoop : Nat → (Nat → PgAcquisitionStatus) → Nat → Option (List Nat)
  | 0, _, _ => none
  | fuel + 1, obs, k =>
    if obs k = .InProgress then
      (pollLoop fuel obs (k + 1)).map (fun w => pollIntervalMillis :: w)
    else
      some []

/-- `PgAccess::acquisition_needed`, from src/pg_access.rs.  `cached` is the
result of `pg_executables_cached` (the probe that opens the initdb
executable); returns the boolean result paired with the awaited tick
durations. -/
def acquisition_needed (cached : Bool) (obs : Nat → PgAcquisitionStatus)
    (fuel : Nat) : Option (Bool × List Nat) :=
  if !cached then
    match obs 0 with
    | .InProgress => (pollLoop fuel obs 1).map (fun w => (false, w))
    | .Finished => some (false, [])
    | .Undefined => some (true, [])
  else
    some (false, [])

/-! ## Path resolution (`PgAccess::new`, `create_cache_dir_structure`)

Filesystem effects are passed in: `userCacheDir` is what `dirs::cache_dir()`
returns, and the two `create_dir_all` calls report `none` on success or
`some e` with the underlying io error description. -/

/-- Fetch settings, from pg_fetch.rs as consumed by src/pg_access.rs.
The strings produced by `operating_system.to_string()`,
`architecture.to_string()`, `version.0` and `platform()` live in files outside
src/, so they are carried as fields.  Modelled from the spec: `osIdStr` is the
os-id, `archStr` the architecture id, `platformStr` the platform label used in
the archive file name. -/
structure PgFetchSettings where
  operating_system : OperationSystem
  osIdStr : String
  archStr : String
  version : String
  platformStr : String
deriving DecidableEq

/-- The cache directory name constant, from src/pg_access.rs
(`PG_EMBED_CACHE_DIR_NAME`). -/
def PG_EMBED_CACHE_DIR_NAME : String := "pg-embed"

/-- The version file name constant, from src/pg_access.rs
(`PG_VERSION_FILE_NAME`). -/
def PG_VERSION_FILE_NAME : String := "PG_VERSION"

/-- `PgAccess` resolved paths, from src/pg_access.rs. -/
structure PgAccess where
  cache_dir : Path
  database_dir : Path
  pg_ctl_exe : Path
  init_db_exe : Path
  pw_file_path : Path
  zip_file_path : Path
  pg_version_file : Path
deriving DecidableEq

/-- `PgAccess::create_cache_dir_structure`, from src/pg_access.rs: locate the
platform cache root (erroring with kind InvalidPgUrl when there is none),
push `pg-embed/<os-id>/<arch>/<version>` — the os-id prefixed with `arch_`
for AlpineLinux — and create the directory (DirCreationError on failure). -/
def create_cache_dir_structure (userCacheDir : Option Path)
    (createDirErr : Option String) (fs : PgFetchSettings) :
    Except AccessError Path :=
  match userCacheDir with
  | none => .error ⟨.InvalidPgUrl, none, none⟩
  | some cache_dir =>
    let os_string :=
      match fs.operating_system with
      | .Darwin | .Windows | .Linux => fs.osIdStr
      | .AlpineLinux => "arch_" ++ fs.osIdStr
    let pg_path := PG_EMBED_CACHE_DIR_NAME ++ "/" ++ os_string ++ "/" ++
      fs.archStr ++ "/" ++ fs.version
    let cache_pg_embed := Path.push cache_dir pg_path
    match createDirErr with
    | some e => .error ⟨.DirCreationError, some e, none⟩
    | none => .ok cache_pg_embed

/-- `PgAccess::create_db_dir_structure`, from src/pg_access.rs. -/
def create_db_dir_structure (createDirErr : Option String) :
    Except AccessError Unit :=
  match createDirErr with
  | some e => .error ⟨.DirCreationError, some e, none⟩
  | none => .ok ()

/-- `PgAccess::new`, from src/pg_access.rs: resolve the cache directory (the
explicit one verbatim when supplied), create the database directory, and
derive the executable, archive, password-file and version-file paths. -/
def PgAccess.new (userCacheDir : Option Path)
    (createCacheDirErr createDbDirErr : Option String) (fs : PgFetchSettings)
    (database_dir : Path) (cache_dir : Option Path) :
    Except AccessError PgAccess := do
  let cache_dir ←
    match cache_dir with
    | some d => pure d
    | none => create_cache_dir_structure userCacheDir createCacheDirErr fs
  let _ ← create_db_dir_structure createDbDirErr
  let pg_ctl := Path.push cache_dir "bin/pg_ctl"
  let init_db := Path.push cache_dir "bin/initdb"
  let file_name := fs.platformStr ++ "-" ++ fs.version ++ ".zip"
  let zip_file_path := Path.push cache_dir file_name
  let pw_file := Path.setExtension database_dir "pwfile"
  let pg_version_file := Path.push database_dir PG_VERSION_FILE_NAME
  pure {
    cache_dir := cache_dir
    database_dir := database_dir
    pg_ctl_exe := pg_ctl
    init_db_exe := init_db
    pw_file_path := pw_file
    zip_file_path := zip_file_path
    pg_version_file := pg_version_file
  }

/-! ## Cleanup, purge, password file -/

/-- A filesystem removal operation, recorded in the order it is attempted. -/
inductive FsOp
  | removeDirAll (p : Path)
  | removeFile (p : Path)
deriving DecidableEq

/-- `PgAccess::clean`, from src/pg_access.rs: remove the database directory
tree, then the password file, mapping either io failure to kind
PgCleanUpFailure; the `?` on the first removal short-circuits past the
second.  Returns the attempted operations in order, paired with the result.
`rmDirErr` and `rmFileErr` are the outcomes of the two removals. -/
def clean (database_dir pw_file_path : Path)
    (rmDirErr rmFileErr : Option String) :
    List FsOp × Except AccessError Unit :=
  match rmDirErr with
  | some e => ([.removeDirAll database_dir],
      .error ⟨.PgCleanUpFailure, some e, none⟩)
  | none =>
    match rmFileErr with
    | some e => ([.removeDirAll database_dir, .removeFile pw_file_path],
        .error ⟨.PgCleanUpFailure, some e, none⟩)
    | none => ([.removeDirAll database_dir, .removeFile pw_file_path], .ok ())

/-- `PgAccess::clean_up`, from src/pg_access.rs: the static async variant of
`clean`, with identical order, error kind and short-circuit. -/
def clean_up (database_dir pw_file : Path)
    (rmDirErr rmFileErr : Option String) :
    List FsOp × Except AccessError Unit :=
  match rmDirErr with
  | some e => ([.removeDirAll database_dir],
      .error ⟨.PgCleanUpFailure, some e, none⟩)
  | none =>
    match rmFileErr with
    | some e => ([.removeDirAll database_dir, .removeFile pw_file],
        .error ⟨.PgCleanUpFailure, some e, none⟩)
    | none => ([.removeDirAll database_dir, .removeFile pw_file], .ok ())

/-- `PgAccess::purge`, from src/pg_access.rs: resolve the platform cache root
(erroring with kind ReadFileError and message "cache dir error" when absent),
push the pg-embed namespace, and remove that tree with the removal result
discarded (`let _ = ...`), then return Ok. -/
def purge (userCacheDir : Option Path) (_rmDirErr : Option String) :
    List FsOp × Except AccessError Unit :=
  match userCacheDir with
  | none => ([], .error ⟨.ReadFileError, none, some "cache dir error"⟩)
  | some cache_dir =>
    let target := Path.push cache_dir PG_EMBED_CACHE_DIR_NAME
    ([.removeDirAll target], .ok ())

/-- `PgAccess::create_password_file`, from src/pg_access.rs: create the file
at the password-file path (truncating), then issue a single `write` of the
password bytes, discarding the reported count (`let _ = file.write(...)`).
Either io failure is mapped to kind WriteFileError.  `createErr` is the
outcome of `File::create`; `writeOut` the outcome of `write`, which on
success reports how many bytes were written.  Returns the resulting file
content on success. -/
def create_password_file (password : List Nat) (createErr : Option String)
    (writeOut : Except String Nat) : Except AccessError (List Nat) :=
  match createErr with
  | some e => .error ⟨.WriteFileError, some e, none⟩
  | none =>
    match writeOut with
    | .error e => .error ⟨.WriteFileError, some e, none⟩
    | .ok n => .ok (password.take n)

/-! ## Process outcome model (src/postgres.rs)

A spawned child is modelled by the eventual outcome of `process.wait()` plus
the content of its standard output and standard error pipes.  A stream yields
its lines in order and then either an end of file or a read error. -/

/-- One captured pipe: the lines `next_line` yields, then an optional read
error ending the stream (otherwise end of file). -/
structure PipeStream where
  lines : List String
  readErr : Option String
deriving DecidableEq

/-- Outcome of `tokio::time::timeout(timeout, process.wait())`, from
src/postgres.rs `timeout_pg_process`: the timeout elapsed, the wait itself
failed, or the process exited with an exit status (its success flag and
display string). -/
inductive WaitOutcome
  | timedOut
  | waitErr (e : String)
  | exited (success : Bool) (display : String)
deriving DecidableEq

/-- Outcome of `Command::spawn` for a lifecycle command: a spawn error, or a
spawned child with its two captured streams and eventual wait outcome. -/
inductive SpawnOutcome
  | spawnErr (e : IoError)
  | spawned (out err : PipeStream) (w : WaitOutcome)
deriving DecidableEq

/-- `PgEmbed::timeout_pg_process`, from src/postgres.rs: returns the single
status written plus the result.  On timeout the status becomes Failure and a
`PgStopFailure` with kind TimedOut is returned (whatever the process type);
on a wait error or a non-success exit status the status becomes Failure and a
`PgStartFailure` with kind Other is returned; on a success exit the status
becomes the completed state of the process type. -/
def timeout_pg_process (w : WaitOutcome) (process_type : PgProcessType) :
    PgServerStatus × Except PgError Unit :=
  match w with
  | .timedOut =>
    (.Failure, .error (.PgStopFailure ⟨.TimedOut,
      "Postgresql " ++ process_type.toStr ++ " command timed out"⟩))
  | .waitErr e =>
    (.Failure, .error (.PgStartFailure ⟨.Other,
      "Postgresql " ++ process_type.toStr ++ " command failed with " ++ e⟩))
  | .exited success display =>
    if success then
      match process_type with
      | .InitDb => (.Initialized, .ok ())
      | .StartDb => (.Started, .ok ())
      | .StopDb => (.Stopped, .ok ())
    else
      (.Failure, .error (.PgStartFailure ⟨.Other,
        "Postgresql " ++ process_type.toStr ++ " command failed with " ++
          display⟩))

/-- `PgEmbed::init_db`, from src/postgres.rs, as the list of statuses written
to `server_status` in order, paired with the returned result.  The status is
set to Initializing first; a spawn error is wrapped in `PgInitFailure` and
returned with no further status write; otherwise io is handled (its result
discarded by the caller) and `timeout_pg_process` decides the final write and
result. -/
def init_db (sp : SpawnOutcome) : List PgServerStatus × Except PgError Unit :=
  match sp with
  | .spawnErr e => ([.Initializing], .error (.PgInitFailure e))
  | .spawned _ _ w =>
    let (st, r) := timeout_pg_process w .InitDb
    ([.Initializing, st], r)

/-- `PgEmbed::start_db`, from src/postgres.rs: as `init_db` with Starting set
first and a spawn error wrapped in `PgStartFailure`. -/
def start_db (sp : SpawnOutcome) : List PgServerStatus × Except PgError Unit :=
  match sp with
  | .spawnErr e => ([.Starting], .error (.PgStartFailure e))
  | .spawned _ _ w =>
    let (st, r) := timeout_pg_process w .StartDb
    ([.Starting, st], r)

/-- `PgEmbed::stop_db`, from src/postgres.rs: as `init_db` with Stopping set
first and a spawn error wrapped in `PgStopFailure`. -/
def stop_db (sp : SpawnOutcome) : List PgServerStatus × Except PgError Unit :=
  match sp with
  | .spawnErr e => ([.Stopping], .error (.PgStopFailure e))
  | .spawned _ _ w =>
    let (st, r) := timeout_pg_process w .StopDb
    ([.Stopping, st], r)

/-! ## Spawn stdio configuration

From src/postgres.rs: each of the three lifecycle commands builds its child
with `.stdout(Stdio::piped()).stderr(Stdio::piped())` before `spawn()`.
`start_db` carries a TODO comment stating that the start command's standard
output can not be piped (the command does not terminate when it is), yet it
pipes it all the same. -/

/-- Which standard streams a lifecycle command's spawn captures. -/
structure SpawnStdio where
  stdout_piped : Bool
  stderr_piped : Bool
deriving DecidableEq

/-- Stdio configuration of the initdb spawn, from src/postgres.rs
`init_db`. -/
def init_db_spawn_stdio : SpawnStdio := ⟨true, true⟩

/-- Stdio configuration of the pg_ctl start spawn, from src/postgres.rs
`start_db`: both streams piped (the TODO comment notwithstanding). -/
def start_db_spawn_stdio : SpawnStdio := ⟨true, true⟩

/-- Stdio configuration of the pg_ctl stop spawn, from src/postgres.rs
`stop_db`. -/
def stop_db_spawn_stdio : SpawnStdio := ⟨true, true⟩

/-! ## Io handling order (`PgEmbed::handle_process_io`)

`handle_process_io` loops `reader_out.next_line()` to completion, printing
each line, and only then loops `reader_err.next_line()` to completion; a read
error returns early through `?`.  The callers await it to completion before
awaiting `timeout_pg_process` (the bounded `process.wait()`). -/

/-- An awaited io event of a lifecycle command, in completion order. -/
inductive IoEvent
  | outLine (s : String)
  | errLine (s : String)
  | procWait
deriving DecidableEq

/-- `PgEmbed::handle_process_io`, from src/postgres.rs: the events produced
(one per line successfully read, stdout stream first and to completion, then
stderr) paired with the result, which reports the first read error through
`PgBufferReadError` and ends the handling there. -/
def handle_process_io (out err : PipeStream) :
    List IoEvent × Except PgError Unit :=
  let outEvents := out.lines.map IoEvent.outLine
  match out.readErr with
  | some e => (outEvents, .error (.PgBufferReadError e))
  | none =>
    let errEvents := err.lines.map IoEvent.errLine
    match err.readErr with
    | some e => (outEvents ++ errEvents, .error (.PgBufferReadError e))
    | none => (outEvents ++ errEvents, .ok ())

/-- The awaited io events of one lifecycle command run, from the bodies of
`init_db` / `start_db` / `stop_db`: nothing on a spawn error; otherwise all of
`handle_process_io` (whose returned result the callers discard) runs to
completion before the bounded wait on process exit is awaited. -/
def lifecycle_io_events (sp : SpawnOutcome) : List IoEvent :=
  match sp with
  | .spawnErr _ => []
  | .spawned out err _ => (handle_process_io out err).1 ++ [.procWait]

/-! ## Bounded-pipe execution of the sequential drain

To settle whether the sequential drain can block process exit, the child and
the supervisor are run against pipes of bounded capacity `cap` (counted in
lines): a child write blocks while its target pipe is full, and the
supervisor's `next_line` blocks while the pipe is empty and the child has not
exited (end of file arrives only once the writer is gone).  The supervisor
performs exactly the source's sequence: drain stdout to end of file, then
stderr, then wait for exit.  The deterministic scheduler always runs the
supervisor when it can make progress, otherwise the child; when neither can,
the system is deadlocked. -/

/-- One write the child performs before exiting. -/
inductive ChildOp
  | cwriteOut (s : String)
  | cwriteErr (s : String)
deriving DecidableEq

/-- Phase of the sequential supervisor of src/postgres.rs: draining stdout,
draining stderr, awaiting exit, done. -/
inductive SupPhase
  | readingOut
  | readingErr
  | waitingExit
  | doneAll
deriving DecidableEq

/-- State of the child / pipes / supervisor system. -/
structure SysState where
  script : List ChildOp
  childExited : Bool
  outBuf : List String
  errBuf : List String
  phase : SupPhase
deriving DecidableEq

/-- One supervisor step, when it can make progress. -/
def supStep (s : SysState) : Option SysState :=
  match s.phase with
  | .readingOut =>
    match s.outBuf with
    | _ :: rest => some { s with outBuf := rest }
    | [] =>
      if s.childExited then some { s with phase := .readingErr } else none
  | .readingErr =>
    match s.errBuf with
    | _ :: rest => some { s with errBuf := rest }
    | [] =>
      if s.childExited then some { s with phase := .waitingExit } else none
  | .waitingExit =>
    if s.childExited then some { s with phase := .doneAll } else none
  | .doneAll => none

/-- One child step, when it can make progress: perform the next write if its
pipe has room, or exit once the script is exhausted. -/
def childStep (cap : Nat) (s : SysState) : Option SysState :=
  match s.script with
  | [] => if s.childExited then none else some { s with childExited := true }
  | op :: rest =>
    match op with
    | .cwriteOut l =>
      if s.outBuf.length < cap then
        some { s with script := rest, outBuf := s.outBuf ++ [l] }
      else none
    | .cwriteErr l =>
      if s.errBuf.length < cap then
        some { s with script := rest, errBuf := s.errBuf ++ [l] }
      else none

/-- Result of running the system to quiescence under a fuel bound. -/
inductive RunOutcome
  | finished
  | deadlocked
  | outOfFuel
deriving DecidableEq

/-- Run the child / supervisor system: supervisor steps take priority, the
child runs when the supervisor is blocked, and a state where neither can
progress and the supervisor is not done is a deadlock. -/
def runSys (cap : Nat) : Nat → SysState → RunOutcome
  | 0, _ => .outOfFuel
  | fuel + 1, s =>
    if s.phase = .doneAll then .finished
    else
      match supStep s with
      | some s2 => runSys cap fuel s2
      | none =>
        match childStep cap s with
        | some s2 => runSys cap fuel s2
        | none => .deadlocked

/-- The initial system state for a child script. -/
def initSys (script : List ChildOp) : SysState :=
  ⟨script, false, [], [], .readingOut⟩

/-! ## Drop-time teardown (`impl Drop for PgEmbed`)

From src/postgres.rs: when the status is not Stopped the drop handler
evaluates `let _ = &self.stop_db();` — this builds the `stop_db` future and
immediately discards the reference without ever polling it, so the body of
`stop_db` does not run: no process is spawned and no status is written.  When
the instance is not persistent it evaluates `let _ = &self.pg_access.clean();`
— `clean` is a synchronous function, so this one does run. -/

/-- An action taken (or merely constructed) by the drop handler, in order. -/
inductive DropAction
  | stopFutureBuiltNotAwaited
  | fsRemoveDirAll (p : Path)
  | fsRemoveFile (p : Path)
deriving DecidableEq

/-- `impl Drop for PgEmbed`, from src/postgres.rs: returns the recorded
actions and the final server status.  `rmDirErr` and `rmFileErr` feed the
inner `clean` call (whose result is discarded). -/
def drop_pg (status : PgServerStatus) (persistent : Bool)
    (database_dir pw_file_path : Path) (rmDirErr rmFileErr : Option String) :
    List DropAction × PgServerStatus :=
  let stopActs :=
    if status ≠ PgServerStatus.Stopped then
      [DropAction.stopFutureBuiltNotAwaited]
    else []
  let cleanActs :=
    if !persistent then
      (clean database_dir pw_file_path rmDirErr rmFileErr).1.map
        (fun op =>
          match op with
          | .removeDirAll p => DropAction.fsRemoveDirAll p
          | .removeFile p => DropAction.fsRemoveFile p)
    else []
  (stopActs ++ cleanActs, status)

/-! ## Helper lemmas -/

/-- Rendering a path with one more pushed segment appends a separator and the
segment, for non-empty paths. -/
theorem Path.render_push (p : Path) (s : String) (h : p ≠ []) :
    (Path.push p s).render = p.render ++ "/" ++ s := by
  induction p with
  | nil => exact absurd rfl h
  | cons x rest ih =>
    cases rest with
    | nil => rfl
    | cons y r =>
      have hr : Path.render (Path.push (y :: r) s) =
          Path.render (y :: r) ++ "/" ++ s := ih (by simp)
      show x ++ "/" ++ Path.render (Path.push (y :: r) s) = _
      rw [hr]
      simp [Path.render, String.append_assoc]

/-- `PgAccess::new` evaluated on a successful run with no explicit cache
directory: the resolved record, by computation. -/
theorem PgAccess.new_ok (root database_dir : Path) (fs : PgFetchSettings) :
    PgAccess.new (some root) none none fs database_dir none = .ok {
      cache_dir := Path.push root (PG_EMBED_CACHE_DIR_NAME ++ "/" ++
        (match fs.operating_system with
          | .Darwin | .Windows | .Linux => fs.osIdStr
          | .AlpineLinux => "arch_" ++ fs.osIdStr) ++ "/" ++
        fs.archStr ++ "/" ++ fs.version)
      database_dir := database_dir
      pg_ctl_exe := Path.push (Path.push root (PG_EMBED_CACHE_DIR_NAME ++ "/" ++
        (match fs.operating_system with
          | .Darwin | .Windows | .Linux => fs.osIdStr
          | .AlpineLinux => "arch_" ++ fs.osIdStr) ++ "/" ++
        fs.archStr ++ "/" ++ fs.version)) "bin/pg_ctl"
      init_db_exe := Path.push (Path.push root (PG_EMBED_CACHE_DIR_NAME ++ "/" ++
        (match fs.operating_system with
          | .Darwin | .Windows | .Linux => fs.osIdStr
          | .AlpineLinux => "arch_" ++ fs.osIdStr) ++ "/" ++
        fs.archStr ++ "/" ++ fs.version)) "bin/initdb"
      pw_file_path := Path.setExtension database_dir "pwfile"
      zip_file_path := Path.push (Path.push root (PG_EMBED_CACHE_DIR_NAME ++ "/" ++
        (match fs.operating_system with
          | .Darwin | .Windows | .Linux => fs.osIdStr
          | .AlpineLinux => "arch_" ++ fs.osIdStr) ++ "/" ++
        fs.archStr ++ "/" ++ fs.version)) (fs.platformStr ++ "-" ++ fs.version ++ ".zip")
      pg_version_file := Path.push database_dir PG_VERSION_FILE_NAME
    } := rfl

/-- The polling loop of `acquisition_needed`: when the observed status stays
InProgress for `n` further observations and then leaves it, the loop ends
with exactly `n` awaited 100-millisecond ticks. -/
theorem pollLoop_replicate (obs : Nat → PgAcquisitionStatus) :
    ∀ (n k fuel : Nat), (∀ j, j < n → obs (k + j) = .InProgress) →
      obs (k + n) ≠ .InProgress → n < fuel →
      pollLoop fuel obs k = some (List.replicate n pollIntervalMillis) := by
  intro n
  induction n with
  | zero =>
    intro k fuel _ hstop hlt
    cases fuel with
    | zero => omega
    | succ f =>
      have hk : obs k ≠ .InProgress := by simpa using hstop
      simp [pollLoop, hk]
  | succ n ih =>
    intro k fuel hall hstop hlt
    cases fuel with
    | zero => omega
    | succ f =>
      have h0 : obs k = .InProgress := by simpa using hall 0 (Nat.succ_pos n)
      have hall2 : ∀ j, j < n → obs (k + 1 + j) = .InProgress := by
        intro j hj
        have := hall (j + 1) (by omega)
        rw [show k + (j + 1) = k + 1 + j by omega] at this
        exact this
      have hstop2 : obs (k + 1 + n) ≠ .InProgress := by
        rw [show k + 1 + n = k + (n + 1) by omega]
        exact hstop
      simp [pollLoop, h0, ih (k + 1) f hall2 hstop2 (by omega),
        List.replicate_succ]

/-! ## Claim theorems -/

/-- C10: the shared acquisition map reads Undefined for a never-marked cache
location; marking in-progress or finished makes the location read InProgress
or Finished respectively, the most recent mark winning (the mark lemmas hold
over any prior map); and marking one cache directory leaves the status
observed at any other cache directory unchanged. -/
theorem acq_map_semantics (m : AcqMap) (k k2 : Path) :
    acquisition_status emptyAcqMap k = .Undefined ∧
    acquisition_status (mark_acquisition_in_progress m k) k = .InProgress ∧
    acquisition_status (mark_acquisition_finished m k) k = .Finished ∧
    (k2 ≠ k →
      acquisition_status (mark_acquisition_in_progress m k) k2 =
        acquisition_status m k2 ∧
      acquisition_status (mark_acquisition_finished m k) k2 =
        acquisition_status m k2) := by
  refine ⟨rfl, ?_, ?_, fun h => ⟨?_, ?_⟩⟩ <;>
    simp_all [acquisition_status, mark_acquisition_in_progress,
      mark_acquisition_finished, acqInsert]

/-- C10 witness: the mark of cache directory `["b"]` leaves the status of
cache directory `["a"]` untouched. -/
theorem acq_map_semantics_witness :
    (["a"] : Path) ≠ ["b"] ∧
    acquisition_status (mark_acquisition_in_progress emptyAcqMap ["b"]) ["a"] =
      .Undefined :=
  ⟨by decide,
    ((acq_map_semantics emptyAcqMap ["b"] ["a"]).2.2.2 (by decide)).1.trans rfl⟩

/-- C5: `acquisition_needed` returns false at once when the executables are
cached; otherwise a Finished shared status yields false, an Undefined one
yields true, and an InProgress one makes it poll the shared status on the
fixed 100-millisecond tick until the status leaves InProgress, after which it
returns false. -/
theorem acquisition_needed_spec (obs : Nat → PgAcquisitionStatus)
    (fuel n : Nat) :
    acquisition_needed true obs fuel = some (false, []) ∧
    (obs 0 = .Finished → acquisition_needed false obs fuel = some (false, [])) ∧
    (obs 0 = .Undefined → acquisition_needed false obs fuel = some (true, [])) ∧
    (obs 0 = .InProgress → (∀ j, j < n → obs (1 + j) = .InProgress) →
      obs (1 + n) ≠ .InProgress → n < fuel →
      acquisition_needed false obs fuel =
        some (false, List.replicate n pollIntervalMillis) ∧
      pollIntervalMillis = 100) := by
  refine ⟨rfl, fun h => ?_, fun h => ?_, fun h h1 h2 h3 => ⟨?_, rfl⟩⟩
  · simp [acquisition_needed, h]
  · simp [acquisition_needed, h]
  · simp [acquisition_needed, h, pollLoop_replicate obs n 1 fuel h1 h2 h3]

/-- C5 witness: with executables not cached and a shared status that reads
InProgress on the first three observations and Finished afterwards,
`acquisition_needed` ends after two 100-millisecond ticks and returns
false. -/
theorem acquisition_needed_spec_witness :
    acquisition_needed false
        (fun k => if k ≤ 2 then PgAcquisitionStatus.InProgress else .Finished)
        5 =
      some (false, List.replicate 2 pollIntervalMillis) :=
  ((acquisition_needed_spec
      (fun k => if k ≤ 2 then PgAcquisitionStatus.InProgress else .Finished)
      5 2).2.2.2 (by decide) (by decide) (by decide) (by decide)).1

/-- C6: for every (operating system, architecture, version) triple, a
successful resolution yields the documented layout — the cache directory
rendered as platform-cache-root/pg-embed/os-id/arch/version with the os-id
prefixed by arch_ exactly for AlpineLinux (musl), the executables under
bin/pg_ctl and bin/initdb inside the cache directory, the archive named
platform-version.zip inside the cache directory, the credentials file at the
data directory path with its extension replaced by pwfile — and the
resolution is deterministic. -/
theorem path_resolution_layout (root database_dir : Path)
    (fs : PgFetchSettings) (a : PgAccess) (hroot : root ≠ [])
    (h : PgAccess.new (some root) none none fs database_dir none = .ok a) :
    Path.render a.cache_dir =
      Path.render root ++ "/" ++ PG_EMBED_CACHE_DIR_NAME ++ "/" ++
        (if fs.operating_system = .AlpineLinux then "arch_" ++ fs.osIdStr
         else fs.osIdStr) ++ "/" ++ fs.archStr ++ "/" ++ fs.version ∧
    Path.render a.pg_ctl_exe = Path.render a.cache_dir ++ "/bin/pg_ctl" ∧
    Path.render a.init_db_exe = Path.render a.cache_dir ++ "/bin/initdb" ∧
    Path.render a.zip_file_path =
      Path.render a.cache_dir ++ "/" ++ fs.platformStr ++ "-" ++ fs.version ++
        ".zip" ∧
    (∀ ps lastSeg stem ext, database_dir = ps ++ [lastSeg] →
      lastDotSplit lastSeg.toList = some (stem, ext) → stem ≠ [] →
      a.pw_file_path = ps ++ [String.mk stem ++ ".pwfile"]) ∧
    (∀ a2, PgAccess.new (some root) none none fs database_dir none = .ok a2 →
      a2 = a) := by
  rw [PgAccess.new_ok] at h
  have ha : a = _ := (Except.ok.inj h).symm
  subst ha
  have hcache : (Path.push root (PG_EMBED_CACHE_DIR_NAME ++ "/" ++
      (match fs.operating_system with
        | .Darwin | .Windows | .Linux => fs.osIdStr
        | .AlpineLinux => "arch_" ++ fs.osIdStr) ++ "/" ++
      fs.archStr ++ "/" ++ fs.version)) ≠ [] := by
    simp [Path.push]
  refine ⟨?_, ?_, ?_, ?_, ?_, ?_⟩
  · rw [Path.render_push _ _ hroot]
    cases fs.operating_system <;> simp [String.append_assoc]
  · rw [Path.render_push _ _ hcache, String.append_assoc]
    rw [show ("/" ++ "bin/pg_ctl" : String) = "/bin/pg_ctl" from rfl]
  · rw [Path.render_push _ _ hcache, String.append_assoc]
    rw [show ("/" ++ "bin/initdb" : String) = "/bin/initdb" from rfl]
  · rw [Path.render_push _ _ hcache]
    simp [String.append_assoc]
  · intro ps lastSeg stem ext hdb hsplit hstem
    subst hdb
    show Path.setExtension (ps ++ [lastSeg]) "pwfile" = _
    have hrev : (ps ++ [lastSeg] : Path).reverse = lastSeg :: ps.reverse := by
      simp
    unfold Path.setExtension
    rw [hrev]
    simp only [List.reverse_reverse]
    unfold setExtSegment
    rw [hsplit]
    simp only [hstem, if_neg, ite_false]
    rw [String.append_assoc,
      show ("." ++ "pwfile" : String) = ".pwfile" from rfl]
  · intro a2 h2
    rw [PgAccess.new_ok] at h2
    exact (Except.ok.inj h2).symm

/-- C6 witness: resolution for AlpineLinux on amd64, version 13.2.0, with the
platform cache root /home/u/.cache and data directory /tmp-relative db.data,
succeeds and renders the documented cache path with the arch_ prefix. -/
theorem path_resolution_layout_witness :
    (["", "home", "u", ".cache"] : Path) ≠ [] ∧
    PgAccess.new (some ["", "home", "u", ".cache"]) none none
        ⟨.AlpineLinux, "linux", "amd64", "13.2.0", "linux-amd64"⟩
        ["tmp", "db.data"] none =
      .ok ⟨["", "home", "u", ".cache", "pg-embed/arch_linux/amd64/13.2.0"],
        ["tmp", "db.data"],
        ["", "home", "u", ".cache", "pg-embed/arch_linux/amd64/13.2.0",
          "bin/pg_ctl"],
        ["", "home", "u", ".cache", "pg-embed/arch_linux/amd64/13.2.0",
          "bin/initdb"],
        ["tmp", "db.pwfile"],
        ["", "home", "u", ".cache", "pg-embed/arch_linux/amd64/13.2.0",
          "linux-amd64-13.2.0.zip"],
        ["tmp", "db.data", "PG_VERSION"]⟩ ∧
    Path.render ["", "home", "u", ".cache", "pg-embed/arch_linux/amd64/13.2.0"] =
      "/home/u/.cache/pg-embed/arch_linux/amd64/13.2.0" :=
  ⟨by decide, by decide,
    (path_resolution_layout ["", "home", "u", ".cache"] ["tmp", "db.data"]
        ⟨.AlpineLinux, "linux", "amd64", "13.2.0", "linux-amd64"⟩
        ⟨["", "home", "u", ".cache", "pg-embed/arch_linux/amd64/13.2.0"],
          ["tmp", "db.data"],
          ["", "home", "u", ".cache", "pg-embed/arch_linux/amd64/13.2.0",
            "bin/pg_ctl"],
          ["", "home", "u", ".cache", "pg-embed/arch_linux/amd64/13.2.0",
            "bin/initdb"],
          ["tmp", "db.pwfile"],
          ["", "home", "u", ".cache", "pg-embed/arch_linux/amd64/13.2.0",
            "linux-amd64-13.2.0.zip"],
          ["tmp", "db.data", "PG_VERSION"]⟩
        (by decide) (by decide)).1.trans (by decide)⟩

/-- C7: instance cleanup removes the data directory tree and then the
credentials file, in that order; a failure of either removal yields the
cleanup-failure error kind; and when the data-directory removal fails the
operation short-circuits, leaving the credentials-file removal unattempted.
The same holds for both the synchronous `clean` and the static `clean_up`. -/
theorem clean_short_circuit (database_dir pw_file_path : Path) (e : String)
    (r : Option String) :
    clean database_dir pw_file_path none none =
      ([.removeDirAll database_dir, .removeFile pw_file_path], .ok ()) ∧
    clean database_dir pw_file_path (some e) r =
      ([.removeDirAll database_dir],
        .error ⟨.PgCleanUpFailure, some e, none⟩) ∧
    FsOp.removeFile pw_file_path ∉ (clean database_dir pw_file_path (some e) r).1 ∧
    clean database_dir pw_file_path none (some e) =
      ([.removeDirAll database_dir, .removeFile pw_file_path],
        .error ⟨.PgCleanUpFailure, some e, none⟩) ∧
    clean_up database_dir pw_file_path none none =
      ([.removeDirAll database_dir, .removeFile pw_file_path], .ok ()) ∧
    clean_up database_dir pw_file_path (some e) r =
      ([.removeDirAll database_dir],
        .error ⟨.PgCleanUpFailure, some e, none⟩) ∧
    FsOp.removeFile pw_file_path ∉
      (clean_up database_dir pw_file_path (some e) r).1 ∧
    clean_up database_dir pw_file_path none (some e) =
      ([.removeDirAll database_dir, .removeFile pw_file_path],
        .error ⟨.PgCleanUpFailure, some e, none⟩) := by
  refine ⟨rfl, rfl, ?_, rfl, rfl, rfl, ?_, rfl⟩ <;> simp [clean, clean_up]

/-- C8 counterexample: when no platform cache directory can be determined,
`purge` returns a ReadFileError-kind failure rather than success, so purge
does not always return success to the caller. -/
theorem purge_none_counterexample :
    purge none none =
      ([], .error ⟨.ReadFileError, none, some "cache dir error"⟩) ∧
    (purge none none).2 ≠ .ok () := by decide

/-- C8 (amended): whenever a platform cache directory exists, `purge` targets
the whole pg-embed cache namespace root under it and swallows any removal
failure, returning success; only a missing platform cache directory makes it
return a ReadFileError-kind failure. -/
theorem purge_swallows_removal_failure (d : Path) (rmDirErr : Option String) :
    purge (some d) rmDirErr =
      ([.removeDirAll (Path.push d PG_EMBED_CACHE_DIR_NAME)], .ok ()) ∧
    purge none rmDirErr =
      ([], .error ⟨.ReadFileError, none, some "cache dir error"⟩) :=
  ⟨rfl, rfl⟩

/-- C9 counterexample: a single `write` call may legally report fewer bytes
written than the secret holds (here 1 of 2, within the io contract since
1 is at most the buffer length); `create_password_file` discards the count
and succeeds, leaving the file holding a strict part of the secret rather
than exactly the secret bytes. -/
theorem create_password_file_short_write_counterexample :
    1 ≤ ([1, 2] : List Nat).length ∧
    create_password_file [1, 2] none (.ok 1) = .ok [1] ∧
    ([1] : List Nat) ≠ [1, 2] := by decide

/-- C9 (amended): a successful `create_password_file` leaves the credentials
file holding the first n bytes of the secret, where n is whatever count the
single underlying write call reported — all of the secret exactly when the
write was complete — and any creation or write failure is reported with the
write-file error kind. -/
theorem create_password_file_spec (password : List Nat) (n : Nat) (e : String)
    (w : Except String Nat) :
    create_password_file password none (.ok n) = .ok (password.take n) ∧
    (n = password.length →
      create_password_file password none (.ok n) = .ok password) ∧
    create_password_file password (some e) w =
      .error ⟨.WriteFileError, some e, none⟩ ∧
    create_password_file password none (.error e) =
      .error ⟨.WriteFileError, some e, none⟩ := by
  refine ⟨rfl, fun h => ?_, rfl, rfl⟩
  simp [create_password_file, h]

/-- C9 witness: a complete write of both secret bytes leaves the file holding
exactly the secret. -/
theorem create_password_file_spec_witness :
    (2 : Nat) = ([1, 2] : List Nat).length ∧
    create_password_file [1, 2] none (.ok 2) = .ok [1, 2] :=
  ⟨by decide,
    (create_password_file_spec [1, 2] 2 "e" (.ok 2)).2.1 (by decide)⟩

/-- C1 counterexample: a spawn failure of the initialize command propagates a
specific error, but the server status is left at the transitional
Initializing state — Failure is never written. -/
theorem init_db_spawn_error_counterexample :
    (init_db (.spawnErr ⟨.Os, "No such file or directory"⟩)).2 =
      .error (.PgInitFailure ⟨.Os, "No such file or directory"⟩) ∧
    PgServerStatus.Failure ∉
      (init_db (.spawnErr ⟨.Os, "No such file or directory"⟩)).1 ∧
    (init_db (.spawnErr ⟨.Os, "No such file or directory"⟩)).1 =
      [.Initializing] := by decide

/-- C1 (amended): each lifecycle command first writes its transitional state;
on a success exit it writes the completed state and returns Ok; on a
non-success exit, a wait error or a timeout it writes Failure and returns a
specific error; on a spawn error it returns the specific wrapped spawn error
but writes no state beyond the transitional one. -/
theorem lifecycle_status_transitions (e : IoError) (out err : PipeStream)
    (d ew : String) :
    init_db (.spawnErr e) = ([.Initializing], .error (.PgInitFailure e)) ∧
    init_db (.spawned out err (.exited true d)) =
      ([.Initializing, .Initialized], .ok ()) ∧
    init_db (.spawned out err (.exited false d)) =
      ([.Initializing, .Failure], .error (.PgStartFailure ⟨.Other,
        "Postgresql initdb command failed with " ++ d⟩)) ∧
    init_db (.spawned out err (.waitErr ew)) =
      ([.Initializing, .Failure], .error (.PgStartFailure ⟨.Other,
        "Postgresql initdb command failed with " ++ ew⟩)) ∧
    init_db (.spawned out err .timedOut) =
      ([.Initializing, .Failure], .error (.PgStopFailure ⟨.TimedOut,
        "Postgresql initdb command timed out"⟩)) ∧
    start_db (.spawnErr e) = ([.Starting], .error (.PgStartFailure e)) ∧
    start_db (.spawned out err (.exited true d)) =
      ([.Starting, .Started], .ok ()) ∧
    start_db (.spawned out err (.exited false d)) =
      ([.Starting, .Failure], .error (.PgStartFailure ⟨.Other,
        "Postgresql start command failed with " ++ d⟩)) ∧
    start_db (.spawned out err (.waitErr ew)) =
      ([.Starting, .Failure], .error (.PgStartFailure ⟨.Other,
        "Postgresql start command failed with " ++ ew⟩)) ∧
    start_db (.spawned out err .timedOut) =
      ([.Starting, .Failure], .error (.PgStopFailure ⟨.TimedOut,
        "Postgresql start command timed out"⟩)) ∧
    stop_db (.spawnErr e) = ([.Stopping], .error (.PgStopFailure e)) ∧
    stop_db (.spawned out err (.exited true d)) =
      ([.Stopping, .Stopped], .ok ()) ∧
    stop_db (.spawned out err (.exited false d)) =
      ([.Stopping, .Failure], .error (.PgStartFailure ⟨.Other,
        "Postgresql stop command failed with " ++ d⟩)) ∧
    stop_db (.spawned out err (.waitErr ew)) =
      ([.Stopping, .Failure], .error (.PgStartFailure ⟨.Other,
        "Postgresql stop command failed with " ++ ew⟩)) ∧
    stop_db (.spawned out err .timedOut) =
      ([.Stopping, .Failure], .error (.PgStopFailure ⟨.TimedOut,
        "Postgresql stop command timed out"⟩)) := by
  refine ⟨rfl, rfl, ?_, ?_, rfl, rfl, rfl, ?_, ?_, rfl, rfl, rfl, ?_, ?_, rfl⟩ <;>
    simp [init_db, start_db, stop_db, timeout_pg_process, PgProcessType.toStr,
      String.append_assoc]

/-- C2: evaluation of the drop handler at the failing input — a non-persistent
instance whose status is Started at drop time.  The handler only builds the
stop future without awaiting it, so no stop runs and the status never leaves
Started (no Stopping or Stopped transition), while the data directory tree
and the credentials file are removed; for a persistent instance nothing is
removed. -/
theorem drop_no_stop_attempt :
    drop_pg .Started false ["tmp", "data"] ["tmp", "db.pwfile"] none none =
      ([.stopFutureBuiltNotAwaited, .fsRemoveDirAll ["tmp", "data"],
        .fsRemoveFile ["tmp", "db.pwfile"]], .Started) ∧
    drop_pg .Started true ["tmp", "data"] ["tmp", "db.pwfile"] none none =
      ([.stopFutureBuiltNotAwaited], .Started) ∧
    (drop_pg .Started false ["tmp", "data"] ["tmp", "db.pwfile"] none none).2 ≠
      .Stopping ∧
    (drop_pg .Started false ["tmp", "data"] ["tmp", "db.pwfile"] none none).2 ≠
      .Stopped := by decide

/-- C3 counterexample: under pipes holding one line, a child that writes two
standard-error lines before exiting deadlocks the supervisor — the drain of
standard output blocks on the idle stream while the child blocks on the full
standard-error pipe, so the process exit is never awaited; the same run with
roomier pipes finishes.  Draining one stream therefore can block process exit
and the reading of the other stream. -/
theorem sequential_drain_deadlock :
    runSys 1 20 (initSys [.cwriteErr "line1", .cwriteErr "line2"]) =
      .deadlocked ∧
    runSys 2 20 (initSys [.cwriteErr "line1", .cwriteErr "line2"]) =
      .finished := by decide

/-- C3 (amended): the supervisor is sequential, not concurrent — every run of
a lifecycle command drains standard output to completion first, then standard
error to completion, and only then awaits the process exit. -/
theorem io_drain_sequential (outLines errLines : List String)
    (w : WaitOutcome) :
    lifecycle_io_events (.spawned ⟨outLines, none⟩ ⟨errLines, none⟩ w) =
      outLines.map IoEvent.outLine ++ errLines.map IoEvent.errLine ++
        [IoEvent.procWait] := by
  simp [lifecycle_io_events, handle_process_io]

/-- C4: evaluation of the spawn configurations at the failing input — the
start command's spawn has its standard output piped (captured), exactly like
the initialize and stop commands, not disabled. -/
theorem spawn_stdio_config :
    start_db_spawn_stdio = ⟨true, true⟩ ∧
    init_db_spawn_stdio = ⟨true, true⟩ ∧
    stop_db_spawn_stdio = ⟨true, true⟩ ∧
    start_db_spawn_stdio.stdout_piped ≠ false := by decide

end PgEmbed
